import Mathlib

/-!
Shallow embedding of the chat sample (`src/apps/chat-app/index.ts`) on top of
the nanobase client (`DataClient` / `NotifyClient`).  The generic record store
is an external service; it is modelled as explicit state: each collection is a
list of records in insertion order, `find` filters in that order, `orderBy`
sorts stably (ties keep insertion order, as the spec's data model states),
`findOne` is `find` with limit 1, `update` patches every record with the given
id (a no-op when the id is absent, since the store contract defines no failure
for a missing id), and `delete` removes records with the given id.  Record ids
are assigned from a counter at creation.  The notifier is modelled by a
transport-failure oracle `notifyFail : String → Bool` saying for which
recipient a `notify.send` call throws.  Timestamps (`new Date()`) are passed in
explicitly as `now : Nat`.  The mutable `this.user` session is passed as an
`Option String` argument (the authenticated user id).
-/

deriving instance DecidableEq for Except

set_option maxRecDepth 8000

inductive RoomType where
  | direct
  | group
  deriving DecidableEq, Repr

inductive MsgType where
  | text
  | image
  | file
  deriving DecidableEq, Repr

/-- Embeds the `ChatRoom` interface; `createdAt`/`lastMessageAt` ISO strings
become `Nat` timestamps. -/
structure ChatRoom where
  id : String
  name : String
  type : RoomType
  members : List String
  createdAt : Nat
  lastMessageAt : Nat
  deriving DecidableEq, Repr

/-- Embeds the `Message` interface. -/
structure Message where
  id : String
  roomId : String
  userId : String
  content : String
  type : MsgType
  readBy : List String
  createdAt : Nat
  deriving DecidableEq, Repr

/-- The record store's state: the `chat_rooms` and `messages` collections in
insertion order, plus the id-assignment counter. -/
structure Store where
  chatRooms : List ChatRoom
  messages : List Message
  nextId : Nat
  deriving DecidableEq, Repr

/-- Lexicographic comparison of character lists by codepoint, modelling the
string comparison JS `Array.prototype.sort` applies to user ids. -/
def strLeAux : List Char → List Char → Bool
  | [], _ => true
  | _ :: _, [] => false
  | c :: cs, d :: ds =>
    if c.val.toNat < d.val.toNat then true
    else if d.val.toNat < c.val.toNat then false
    else strLeAux cs ds

/-- Lexicographic string comparison by codepoint. -/
def strLe (a b : String) : Bool := strLeAux a.data b.data

/-- JS `[a, b].sort()` on the two user-id strings. -/
def sortPair (a b : String) : List String :=
  if strLe a b then [a, b] else [b, a]

/-- JS `[...new Set(l)]`: deduplicate keeping the first occurrence of each
element, in insertion order. -/
def dedupFirst : List String → List String
  | [] => []
  | x :: xs => x :: (dedupFirst xs).filter (fun y => decide (y ≠ x))

/-- Stable insertion (descending by `key`) used to model the store's
`orderBy ... desc`: `x` is placed before the first element whose key is ≤ its
own, so elements already in the list (earlier insertions) with an equal key
stay in front only if they came earlier in the original list. -/
def insertByDesc (key : α → Nat) (x : α) : List α → List α
  | [] => [x]
  | y :: ys => if key y ≤ key x then x :: y :: ys else y :: insertByDesc key x ys

/-- Stable sort, descending by `key` (ties keep insertion order), modelling the
store's `orderBy: {field: 'desc'}`. -/
def sortByDesc (key : α → Nat) : List α → List α
  | [] => []
  | x :: xs => insertByDesc key x (sortByDesc key xs)

/-- Store `find` on `chat_rooms` with a `where` predicate and no ordering:
records in insertion order. -/
def Store.findRooms (s : Store) (p : ChatRoom → Bool) : List ChatRoom :=
  s.chatRooms.filter p

/-- `findOne` = `find` with `limit 1`, first element or null. -/
def Store.findOneRoom (s : Store) (p : ChatRoom → Bool) : Option ChatRoom :=
  (s.chatRooms.filter p).head?

/-- Store `create` on `chat_rooms`: assigns the next id and appends. -/
def Store.createRoom (s : Store) (name : String) (type : RoomType)
    (members : List String) (createdAt lastMessageAt : Nat) : ChatRoom × Store :=
  let room : ChatRoom := ⟨toString s.nextId, name, type, members, createdAt, lastMessageAt⟩
  (room, { s with chatRooms := s.chatRooms ++ [room], nextId := s.nextId + 1 })

/-- Store `update` on `chat_rooms`: patches every record with the given id
(no-op when the id is absent — the store contract defines no failure here). -/
def Store.updateRoom (s : Store) (id : String) (f : ChatRoom → ChatRoom) : Store :=
  { s with chatRooms := s.chatRooms.map (fun r => if r.id = id then f r else r) }

/-- Store `delete` on `chat_rooms`. -/
def Store.deleteRoom (s : Store) (id : String) : Store :=
  { s with chatRooms := s.chatRooms.filter (fun r => decide (r.id ≠ id)) }

/-- `findOne` on `messages`. -/
def Store.findOneMessage (s : Store) (p : Message → Bool) : Option Message :=
  (s.messages.filter p).head?

/-- Store `create` on `messages`: assigns the next id and appends. -/
def Store.createMessage (s : Store) (roomId userId content : String) (type : MsgType)
    (readBy : List String) (createdAt : Nat) : Message × Store :=
  let msg : Message := ⟨toString s.nextId, roomId, userId, content, type, readBy, createdAt⟩
  (msg, { s with messages := s.messages ++ [msg], nextId := s.nextId + 1 })

/-- Store `update` on `messages` (same contract as `updateRoom`). -/
def Store.updateMessage (s : Store) (id : String) (f : Message → Message) : Store :=
  { s with messages := s.messages.map (fun m => if m.id = id then f m else m) }

/-- Store `find` on `messages` with `where {roomId}`, `orderBy createdAt desc`
and an optional `limit` (absent limit returns everything). -/
def Store.findMessagesDesc (s : Store) (roomId : String) (limit : Option Nat) :
    List Message :=
  let base := sortByDesc Message.createdAt
    (s.messages.filter (fun m => decide (m.roomId = roomId)))
  match limit with
  | some n => base.take n
  | none => base

/-- `DataClient.find` forwards `limit` to the server only when it is truthy:
`if (query.limit) params.set('limit', ...)` — a limit of 0 is falsy in JS and
is dropped, so the server returns the whole result set. -/
def dataFindMessages (s : Store) (roomId : String) (limit : Nat) : List Message :=
  s.findMessagesDesc roomId (if limit = 0 then none else some limit)

/-- Errors the ChatApp methods can throw: `'Not authenticated'`,
`'Room not found'`, and a notifier transport failure propagating out of
`client.notify.send`. -/
inductive ChatError where
  | notAuthenticated
  | roomNotFound
  | notifyFailed
  deriving DecidableEq, Repr

/-- One `client.notify.send` payload: recipient, message text, and the
`metadata: {roomId, messageId, senderId}` object. -/
structure NotifyCall where
  userId : String
  message : String
  roomId : String
  messageId : String
  senderId : String
  deriving DecidableEq, Repr

/-- Result of `sendMessage`: the returned message or the thrown error, the
store state after the call (a thrown error leaves the writes already made),
and the notifier calls that completed. -/
structure SendResult where
  result : Except ChatError Message
  store : Store
  notifications : List NotifyCall
  deriving Repr

/-- `ChatApp.createDirectRoom`: requires a session, looks up an existing
direct room for the sorted pair, returns it if present, otherwise creates
one with the sorted pair as members. -/
def ChatApp.createDirectRoom (user : Option String) (s : Store)
    (otherUserId : String) (now : Nat) : Except ChatError ChatRoom × Store :=
  match user with
  | none => (.error .notAuthenticated, s)
  | some uid =>
    let pair := sortPair uid otherUserId
    let existing := s.findRooms (fun r => decide (r.type = RoomType.direct ∧ r.members = pair))
    match existing with
    | r :: _ => (.ok r, s)
    | [] =>
      let c := s.createRoom "" RoomType.direct pair now now
      (.ok c.1, c.2)

/-- `ChatApp.createGroupRoom`: members = `[...new Set([this.user.id, ...memberIds])]`. -/
def ChatApp.createGroupRoom (user : Option String) (s : Store) (name : String)
    (memberIds : List String) (now : Nat) : Except ChatError ChatRoom × Store :=
  match user with
  | none => (.error .notAuthenticated, s)
  | some uid =>
    let members := dedupFirst (uid :: memberIds)
    let c := s.createRoom name RoomType.group members now now
    (.ok c.1, c.2)

/-- `ChatApp.getRooms`: rooms containing the user, ordered by
`lastMessageAt desc`. -/
def ChatApp.getRooms (user : Option String) (s : Store) :
    Except ChatError (List ChatRoom) :=
  match user with
  | none => .error .notAuthenticated
  | some uid =>
    .ok (sortByDesc ChatRoom.lastMessageAt
      (s.chatRooms.filter (fun r => decide (uid ∈ r.members))))

/-- `ChatApp.leaveRoom`: throws `'Room not found'` when the lookup misses,
filters the caller out of `members`, deletes the room when the result is
empty, otherwise persists the shrunken member list. -/
def ChatApp.leaveRoom (user : Option String) (s : Store) (roomId : String) :
    Except ChatError Unit × Store :=
  match user with
  | none => (.error .notAuthenticated, s)
  | some uid =>
    match s.findOneRoom (fun r => decide (r.id = roomId)) with
    | none => (.error .roomNotFound, s)
    | some room =>
      let updatedMembers := room.members.filter (fun i => decide (i ≠ uid))
      if updatedMembers.length = 0 then
        (.ok (), s.deleteRoom roomId)
      else
        (.ok (), s.updateRoom roomId (fun r => { r with members := updatedMembers }))

/-- One `client.notify.send` call: throws when the transport fails for that
recipient. -/
def notifySend (notifyFail : String → Bool) (call : NotifyCall) :
    Except ChatError Unit :=
  if notifyFail call.userId then .error .notifyFailed else .ok ()

/-- The awaited `for`-loop over recipients in `notifyMembers`: each send is
awaited, an exception aborts the loop (recipients after the failure get no
call) and propagates. -/
def notifyLoop (notifyFail : String → Bool) (mk : String → NotifyCall) :
    List String → Except ChatError Unit × List NotifyCall
  | [] => (.ok (), [])
  | m :: rest =>
    match notifySend notifyFail (mk m) with
    | .error e => (.error e, [])
    | .ok _ =>
      let r := notifyLoop notifyFail mk rest
      (r.1, mk m :: r.2)

/-- `ChatApp.notifyMembers`: looks the room up; `if (!room) return;` — a
missing room is silently skipped.  Otherwise one notifier call per member
other than the sender, carrying the prefixed 50-character content preview and
`metadata {roomId, messageId, senderId}`. -/
def ChatApp.notifyMembers (notifyFail : String → Bool) (uid : String) (s : Store)
    (roomId : String) (msg : Message) : Except ChatError Unit × List NotifyCall :=
  match s.findOneRoom (fun r => decide (r.id = roomId)) with
  | none => (.ok (), [])
  | some room =>
    let otherMembers := room.members.filter (fun i => decide (i ≠ uid))
    notifyLoop notifyFail
      (fun m => ⟨m, "新しいメッセージ: " ++ msg.content.take 50, roomId, msg.id, uid⟩)
      otherMembers

/-- `ChatApp.sendMessage`: creates the message (readBy = `[this.user.id]`,
`createdAt = now`), unconditionally updates the room's `lastMessageAt` to the
message's `createdAt`, then awaits `notifyMembers`; an exception there
propagates, but the store writes already made remain. -/
def ChatApp.sendMessage (notifyFail : String → Bool) (user : Option String)
    (s : Store) (roomId content : String) (type : MsgType) (now : Nat) : SendResult :=
  match user with
  | none => ⟨.error .notAuthenticated, s, []⟩
  | some uid =>
    let c := s.createMessage roomId uid content type [uid] now
    let s2 := c.2.updateRoom roomId (fun r => { r with lastMessageAt := c.1.createdAt })
    let n := ChatApp.notifyMembers notifyFail uid s2 roomId c.1
    match n.1 with
    | .error e => ⟨.error e, s2, n.2⟩
    | .ok _ => ⟨.ok c.1, s2, n.2⟩

/-- `ChatApp.getMessages`: fetch most recent `limit` messages descending, then
reverse. -/
def ChatApp.getMessages (user : Option String) (s : Store) (roomId : String)
    (limit : Nat) : Except ChatError (List Message) :=
  match user with
  | none => .error .notAuthenticated
  | some _ => .ok (dataFindMessages s roomId limit).reverse

/-- The loop body of `markAsRead`: fetch each message; when found and the user
is not yet in `readBy`, persist `[...message.readBy, userId]`.  Also counts
the update writes issued. -/
def markLoop (uid : String) : List String → Store → Store × Nat
  | [], s => (s, 0)
  | mid :: rest, s =>
    match s.findOneMessage (fun m => decide (m.id = mid)) with
    | none => markLoop uid rest s
    | some msg =>
      if uid ∈ msg.readBy then markLoop uid rest s
      else
        let s2 := s.updateMessage mid (fun m => { m with readBy := msg.readBy ++ [uid] })
        let r := markLoop uid rest s2
        (r.1, r.2 + 1)

/-- `ChatApp.markAsRead`: session check, then the per-id loop; the third
component counts the store update writes issued. -/
def ChatApp.markAsRead (user : Option String) (s : Store)
    (messageIds : List String) : Except ChatError Unit × Store × Nat :=
  match user with
  | none => (.error .notAuthenticated, s, 0)
  | some uid =>
    let r := markLoop uid messageIds s
    (.ok (), r.1, r.2)

/-- `ChatApp.getUnreadCount`: counts messages whose `readBy` misses the user,
optionally scoped to one room. -/
def ChatApp.getUnreadCount (user : Option String) (s : Store)
    (roomId : Option String) : Except ChatError Nat :=
  match user with
  | none => .error .notAuthenticated
  | some uid =>
    .ok ((s.messages.filter (fun m =>
      decide (uid ∉ m.readBy) &&
        (match roomId with
         | some r => decide (m.roomId = r)
         | none => true))).length)

/-- `ChatApp.getOnlineUsers`: no session check; `room?.members || []`. -/
def ChatApp.getOnlineUsers (user : Option String) (s : Store) (roomId : String) :
    List String :=
  match s.findOneRoom (fun r => decide (r.id = roomId)) with
  | some room => room.members
  | none => []

/-- Direct rooms stored for the unordered pair `{a, b}`. -/
def directRoomsFor (s : Store) (a b : String) : List ChatRoom :=
  s.chatRooms.filter (fun r => decide (r.type = RoomType.direct ∧ r.members = sortPair a b))

/-- The room's full history, chronological ascending (what the store returns
descending with no limit, reversed). -/
def fullHistory (s : Store) (roomId : String) : List Message :=
  (sortByDesc Message.createdAt
    (s.messages.filter (fun m => decide (m.roomId = roomId)))).reverse

/-- Every stored room has a non-empty member list. -/
def RoomsNonempty (s : Store) : Prop :=
  ∀ r ∈ s.chatRooms, r.members ≠ []

/-- The store after a sequence of `leaveRoom` calls (each with its own
session). -/
def leaveSeq (s : Store) (calls : List (Option String × String)) : Store :=
  calls.foldl (fun st c => (ChatApp.leaveRoom c.1 st c.2).2) s

/-- A message evolved monotonically: same id, `readBy` only grew. -/
def MsgMono (m m2 : Message) : Prop :=
  m2.id = m.id ∧ ∀ u ∈ m.readBy, u ∈ m2.readBy

/-- The messages collection evolved monotonically, record by record. -/
def MsgsMono (l l2 : List Message) : Prop :=
  List.Forall₂ MsgMono l l2

/-- The stored message ids are pairwise distinct (store-assigned ids). -/
def MsgIdsNodup (s : Store) : Prop :=
  (s.messages.map Message.id).Nodup

/-- The store after a sequence of `markAsRead` calls (each with its own
session and id batch). -/
def markSeq (s : Store) (calls : List (Option String × List String)) : Store :=
  calls.foldl (fun st c => (ChatApp.markAsRead c.1 st c.2).2.1) s

/-! ## Helper lemmas -/

theorem strLeAux_total : ∀ a b : List Char, strLeAux a b = true ∨ strLeAux b a = true := by
  intro a
  induction a with
  | nil => intro b; left; rfl
  | cons c cs ih =>
    intro b
    cases b with
    | nil => right; rfl
    | cons d ds =>
      rcases Nat.lt_trichotomy c.val.toNat d.val.toNat with h | h | h
      · left; simp [strLeAux, h]
      · rcases ih ds with h2 | h2
        · left; simp [strLeAux, h, h2]
        · right; simp [strLeAux, h, h2]
      · right; simp [strLeAux, h]

theorem strLeAux_antisymm : ∀ a b : List Char,
    strLeAux a b = true → strLeAux b a = true → a = b := by
  intro a
  induction a with
  | nil =>
    intro b _ hba
    cases b with
    | nil => rfl
    | cons d ds => simp [strLeAux] at hba
  | cons c cs ih =>
    intro b hab hba
    cases b with
    | nil => simp [strLeAux] at hab
    | cons d ds =>
      rcases Nat.lt_trichotomy c.val.toNat d.val.toNat with h | h | h
      · simp [strLeAux, h, Nat.lt_asymm h, Nat.ne_of_lt h] at hba
      · have hcd : c = d := Char.ext (UInt32.eq_of_val_eq (Fin.eq_of_val_eq h))
        subst hcd
        simp only [strLeAux, Nat.lt_irrefl, if_false] at hab hba
        exact congrArg (c :: ·) (ih ds hab hba)
      · simp [strLeAux, h, Nat.lt_asymm h, Nat.ne_of_lt h] at hab

theorem sortPair_comm (a b : String) : sortPair a b = sortPair b a := by
  unfold sortPair strLe
  rcases hab : strLeAux a.data b.data with _ | _ <;>
    rcases hba : strLeAux b.data a.data with _ | _ <;> simp
  · rcases strLeAux_total a.data b.data with h | h
    · simp [h] at hab
    · simp [h] at hba
  · have : a.data = b.data := strLeAux_antisymm a.data b.data hab hba
    have : a = b := by cases a; cases b; simp_all
    simp [this]
/-- C1: Direct-room creation is idempotent — `createDirectRoom(A,B)` followed
by `createDirectRoom(B,A)` on the resulting store returns the same room and
leaves the store unchanged, and after the first call exactly one direct room
for the unordered pair `{A,B}` exists when none did before (and no new one is
added when some already did). -/
theorem createDirectRoom_idempotent (A B : String) (s : Store) (n1 n2 : Nat)
    (hAB : A ≠ B) :
    (ChatApp.createDirectRoom (some B) (ChatApp.createDirectRoom (some A) s B n1).2 A n2).1
      = (ChatApp.createDirectRoom (some A) s B n1).1 ∧
    (ChatApp.createDirectRoom (some B) (ChatApp.createDirectRoom (some A) s B n1).2 A n2).2
      = (ChatApp.createDirectRoom (some A) s B n1).2 ∧
    (directRoomsFor (ChatApp.createDirectRoom (some A) s B n1).2 A B).length
      = max 1 (directRoomsFor s A B).length := by
  simp only [ChatApp.createDirectRoom, Store.findRooms, Store.createRoom,
    sortPair_comm B A, directRoomsFor]
  cases hfil : s.chatRooms.filter
      (fun r => decide (r.type = RoomType.direct ∧ r.members = sortPair A B)) with
  | nil =>
    simp only [hfil, List.filter_append, List.nil_append, List.filter_cons,
      List.filter_nil, decide_eq_true_eq, and_self, if_pos, List.length_nil]
    simp
  | cons r t =>
    simp only [hfil]
    simp [Nat.max_eq_right, Nat.succ_le_succ, hfil]

/-- Witness for `createDirectRoom_idempotent` at `A = "a"`, `B = "b"`, the
empty store. -/
theorem createDirectRoom_idempotent_witness :
    (ChatApp.createDirectRoom (some "b") (ChatApp.createDirectRoom (some "a") ⟨[], [], 0⟩ "b" 1).2 "a" 2).1
      = (ChatApp.createDirectRoom (some "a") ⟨[], [], 0⟩ "b" 1).1 ∧
    (ChatApp.createDirectRoom (some "b") (ChatApp.createDirectRoom (some "a") ⟨[], [], 0⟩ "b" 1).2 "a" 2).2
      = (ChatApp.createDirectRoom (some "a") ⟨[], [], 0⟩ "b" 1).2 ∧
    (directRoomsFor (ChatApp.createDirectRoom (some "a") ⟨[], [], 0⟩ "b" 1).2 "a" "b").length
      = max 1 (directRoomsFor ⟨[], [], 0⟩ "a" "b").length :=
  createDirectRoom_idempotent "a" "b" ⟨[], [], 0⟩ 1 2 (by decide)
theorem findOneRoom_some {s : Store} {p : ChatRoom → Bool} {r : ChatRoom}
    (h : s.findOneRoom p = some r) : r ∈ s.chatRooms ∧ p r = true := by
  unfold Store.findOneRoom at h
  exact List.mem_filter.mp (List.mem_of_mem_head? h)

theorem leaveRoom_delete_eq {u : String} {s : Store} {roomId : String} {room : ChatRoom}
    (h : s.findOneRoom (fun r => decide (r.id = roomId)) = some room)
    (hrem : (room.members.filter (fun i => decide (i ≠ u))).length = 0) :
    ChatApp.leaveRoom (some u) s roomId = (.ok (), s.deleteRoom roomId) := by
  simp only [ChatApp.leaveRoom, h]
  rw [if_pos hrem]

theorem leaveRoom_update_eq {u : String} {s : Store} {roomId : String} {room : ChatRoom}
    (h : s.findOneRoom (fun r => decide (r.id = roomId)) = some room)
    (hrem : ¬ (room.members.filter (fun i => decide (i ≠ u))).length = 0) :
    ChatApp.leaveRoom (some u) s roomId =
      (.ok (), s.updateRoom roomId
        (fun r => { r with members := room.members.filter (fun i => decide (i ≠ u)) })) := by
  simp only [ChatApp.leaveRoom, h]
  rw [if_neg hrem]

theorem leaveRoom_preserves (user : Option String) (s : Store) (roomId : String)
    (h : RoomsNonempty s) : RoomsNonempty (ChatApp.leaveRoom user s roomId).2 := by
  cases user with
  | none => exact h
  | some uid =>
    cases hfind : s.findOneRoom (fun r => decide (r.id = roomId)) with
    | none => simpa [ChatApp.leaveRoom, hfind] using h
    | some room =>
      by_cases hrem : (room.members.filter (fun i => decide (i ≠ uid))).length = 0
      · rw [leaveRoom_delete_eq hfind hrem]
        intro r hr
        exact h r (List.mem_filter.mp hr).1
      · rw [leaveRoom_update_eq hfind hrem]
        intro r hr
        simp only [Store.updateRoom] at hr
        rcases List.mem_map.mp hr with ⟨x, hx, hgx⟩
        by_cases hid : x.id = roomId
        · subst hgx
          simp only [hid, if_pos]
          intro hnil
          exact hrem (by rw [hnil]; rfl)
        · subst hgx
          simp only [hid, if_neg]
          exact h x hx

/-- C6: room existence tracks membership.  `leaveRoom` fails with NotFound on
an absent room; on a present room it removes the caller from the member list,
deletes the room record exactly when the remaining member list is empty, and
otherwise persists the shrunken list; and over any sequence of `leaveRoom`
calls every stored room keeps a non-empty member list (a room record exists
iff its member set is non-empty). -/
theorem leaveRoom_spec :
    (∀ (u : String) (s : Store) (roomId : String),
      s.findOneRoom (fun r => decide (r.id = roomId)) = none →
        ChatApp.leaveRoom (some u) s roomId = (.error .roomNotFound, s)) ∧
    (∀ (u : String) (s : Store) (roomId : String) (room : ChatRoom),
      s.findOneRoom (fun r => decide (r.id = roomId)) = some room →
        (ChatApp.leaveRoom (some u) s roomId).1 = .ok () ∧
        ((∃ r ∈ (ChatApp.leaveRoom (some u) s roomId).2.chatRooms, r.id = roomId) ↔
          room.members.filter (fun i => decide (i ≠ u)) ≠ []) ∧
        (∀ r ∈ (ChatApp.leaveRoom (some u) s roomId).2.chatRooms, r.id = roomId →
          r.members = room.members.filter (fun i => decide (i ≠ u)))) ∧
    (∀ (s : Store) (calls : List (Option String × String)),
      RoomsNonempty s → RoomsNonempty (leaveSeq s calls)) := by
  refine ⟨?_, ?_, ?_⟩
  · intro u s roomId h
    simp [ChatApp.leaveRoom, h]
  · intro u s roomId room h
    obtain ⟨hmem, hp⟩ := findOneRoom_some h
    have hid : room.id = roomId := by simpa using hp
    by_cases hrem : (room.members.filter (fun i => decide (i ≠ u))).length = 0
    · have hnil : room.members.filter (fun i => decide (i ≠ u)) = [] :=
        List.length_eq_zero.mp hrem
      rw [leaveRoom_delete_eq h hrem]
      refine ⟨rfl, ?_, ?_⟩
      · constructor
        · rintro ⟨r, hr, hrid⟩
          rcases List.mem_filter.mp hr with ⟨_, hne⟩
          exact absurd hrid (by simpa using hne)
        · intro hne; exact absurd hnil hne
      · intro r hr hrid
        rcases List.mem_filter.mp hr with ⟨_, hne⟩
        exact absurd hrid (by simpa using hne)
    · rw [leaveRoom_update_eq h hrem]
      refine ⟨rfl, ?_, ?_⟩
      · constructor
        · intro _; exact fun hnil => hrem (by rw [hnil]; rfl)
        · intro _
          refine ⟨⟨roomId, room.name, room.type,
            room.members.filter (fun i => decide (i ≠ u)), room.createdAt,
            room.lastMessageAt⟩, ?_, rfl⟩
          simp only [Store.updateRoom]
          refine List.mem_map.mpr ⟨room, hmem, ?_⟩
          simp [hid]
      · intro r hr hrid
        simp only [Store.updateRoom] at hr
        rcases List.mem_map.mp hr with ⟨x, hx, hgx⟩
        by_cases hxid : x.id = roomId
        · subst hgx; simp [hxid]
        · subst hgx
          simp only [hxid, if_neg] at hrid
          exact absurd hrid hxid
  · intro s calls
    induction calls generalizing s with
    | nil => intro h; exact h
    | cons c rest ih =>
      intro h
      exact ih _ (leaveRoom_preserves c.1 s c.2 h)

/-- Witness for `leaveRoom_spec`: the NotFound case on the empty store,
scenario 2's group room `{u1, u2, u3}` after `u2` leaves, and the invariant
over the full leave sequence of scenario 2. -/
theorem leaveRoom_spec_witness :
    ChatApp.leaveRoom (some "u1") ⟨[], [], 0⟩ "r" = (.error .roomNotFound, ⟨[], [], 0⟩) ∧
    ((ChatApp.leaveRoom (some "u2")
        ⟨[⟨"r", "g", RoomType.group, ["u1", "u2", "u3"], 0, 0⟩], [], 1⟩ "r").1 = .ok () ∧
      ((∃ r ∈ (ChatApp.leaveRoom (some "u2")
          ⟨[⟨"r", "g", RoomType.group, ["u1", "u2", "u3"], 0, 0⟩], [], 1⟩ "r").2.chatRooms,
          r.id = "r") ↔
        (["u1", "u2", "u3"].filter (fun i => decide (i ≠ "u2")) ≠ [])) ∧
      (∀ r ∈ (ChatApp.leaveRoom (some "u2")
          ⟨[⟨"r", "g", RoomType.group, ["u1", "u2", "u3"], 0, 0⟩], [], 1⟩ "r").2.chatRooms,
          r.id = "r" → r.members = ["u1", "u2", "u3"].filter (fun i => decide (i ≠ "u2")))) ∧
    RoomsNonempty (leaveSeq ⟨[⟨"r", "g", RoomType.group, ["u1", "u2", "u3"], 0, 0⟩], [], 1⟩
      [(some "u2", "r"), (some "u1", "r"), (some "u3", "r")]) :=
  ⟨leaveRoom_spec.1 "u1" ⟨[], [], 0⟩ "r" (by rfl),
   leaveRoom_spec.2.1 "u2" ⟨[⟨"r", "g", RoomType.group, ["u1", "u2", "u3"], 0, 0⟩], [], 1⟩ "r"
     ⟨"r", "g", RoomType.group, ["u1", "u2", "u3"], 0, 0⟩ (by rfl),
   leaveRoom_spec.2.2 ⟨[⟨"r", "g", RoomType.group, ["u1", "u2", "u3"], 0, 0⟩], [], 1⟩
     [(some "u2", "r"), (some "u1", "r"), (some "u3", "r")]
     (by intro r hr; simp only [List.mem_singleton] at hr; subst hr; simp)⟩
theorem findOneMessage_some {s : Store} {p : Message → Bool} {m : Message}
    (h : s.findOneMessage p = some m) : m ∈ s.messages ∧ p m = true := by
  unfold Store.findOneMessage at h
  exact List.mem_filter.mp (List.mem_of_mem_head? h)

theorem forall₂_map_self {α : Type} {R : α → α → Prop} {g : α → α} :
    ∀ {l : List α}, (∀ a ∈ l, R a (g a)) → List.Forall₂ R l (l.map g) := by
  intro l
  induction l with
  | nil => intro _; exact List.Forall₂.nil
  | cons x xs ih =>
    intro h
    exact List.Forall₂.cons (h x (List.mem_cons_self x xs))
      (ih fun a ha => h a (List.mem_cons_of_mem _ ha))

theorem msgsMono_refl : ∀ l : List Message, MsgsMono l l := by
  intro l
  induction l with
  | nil => exact List.Forall₂.nil
  | cons x xs ih => exact List.Forall₂.cons ⟨rfl, fun u hu => hu⟩ ih

theorem msgsMono_trans {a b c : List Message} (hab : MsgsMono a b) (hbc : MsgsMono b c) :
    MsgsMono a c := by
  induction hab generalizing c with
  | nil => cases hbc; exact List.Forall₂.nil
  | cons hR hT ih =>
    cases hbc with
    | cons hR2 hT2 =>
      exact List.Forall₂.cons ⟨hR2.1.trans hR.1, fun u hu => hR2.2 u (hR.2 u hu)⟩ (ih hT2)

theorem updateMessage_ids (s : Store) (mid : String) (f : Message → Message)
    (hf : ∀ m, (f m).id = m.id) :
    ((s.updateMessage mid f).messages).map Message.id = s.messages.map Message.id := by
  simp only [Store.updateMessage, List.map_map]
  apply List.map_congr_left
  intro m _
  by_cases hmm : m.id = mid <;> simp [Function.comp, hmm, hf]

theorem markLoop_ids (uid : String) : ∀ (ids : List String) (s : Store),
    ((markLoop uid ids s).1).messages.map Message.id = s.messages.map Message.id := by
  intro ids
  induction ids with
  | nil => intro s; rfl
  | cons mid rest ih =>
    intro s
    cases hfind : s.findOneMessage (fun m => decide (m.id = mid)) with
    | none => simp only [markLoop, hfind]; exact ih s
    | some msg =>
      simp only [markLoop, hfind]
      by_cases hin : uid ∈ msg.readBy
      · rw [if_pos hin]; exact ih s
      · rw [if_neg hin]
        exact (ih _).trans (updateMessage_ids s mid _ (fun m => rfl))

theorem updateMessage_mono (s : Store) (mid uid : String) (msg : Message)
    (hnd : MsgIdsNodup s)
    (hfind : s.findOneMessage (fun m => decide (m.id = mid)) = some msg) :
    MsgsMono s.messages
      ((s.updateMessage mid (fun m => { m with readBy := msg.readBy ++ [uid] })).messages) := by
  obtain ⟨hmem, hp⟩ := findOneMessage_some hfind
  have hmsgid : msg.id = mid := by simpa using hp
  simp only [Store.updateMessage]
  apply forall₂_map_self
  intro m hm
  by_cases hid : m.id = mid
  · have hmm : m = msg := List.inj_on_of_nodup_map hnd hm hmem (by rw [hid, hmsgid])
    refine ⟨by simp [hid], ?_⟩
    intro u hu
    rw [if_pos hid]
    exact List.mem_append_left _ (hmm ▸ hu)
  · exact ⟨by simp [hid], by intro u hu; simpa [hid] using hu⟩

theorem markLoop_mono (uid : String) : ∀ (ids : List String) (s : Store),
    MsgIdsNodup s → MsgsMono s.messages ((markLoop uid ids s).1).messages := by
  intro ids
  induction ids with
  | nil => intro s _; exact msgsMono_refl _
  | cons mid rest ih =>
    intro s hnd
    cases hfind : s.findOneMessage (fun m => decide (m.id = mid)) with
    | none => simp only [markLoop, hfind]; exact ih s hnd
    | some msg =>
      simp only [markLoop, hfind]
      by_cases hin : uid ∈ msg.readBy
      · rw [if_pos hin]; exact ih s hnd
      · rw [if_neg hin]
        have hnd2 : MsgIdsNodup
            (s.updateMessage mid (fun m => { m with readBy := msg.readBy ++ [uid] })) := by
          unfold MsgIdsNodup
          rw [updateMessage_ids s mid
            (fun m => { m with readBy := msg.readBy ++ [uid] }) (fun m => rfl)]
          exact hnd
        exact msgsMono_trans (updateMessage_mono s mid uid msg hnd hfind) (ih _ hnd2)

theorem markAsRead_ids (user : Option String) (s : Store) (ids : List String) :
    ((ChatApp.markAsRead user s ids).2.1).messages.map Message.id
      = s.messages.map Message.id := by
  cases user with
  | none => rfl
  | some uid => exact markLoop_ids uid ids s

theorem markAsRead_mono (user : Option String) (s : Store) (ids : List String)
    (hnd : MsgIdsNodup s) :
    MsgsMono s.messages ((ChatApp.markAsRead user s ids).2.1).messages := by
  cases user with
  | none => exact msgsMono_refl _
  | some uid => exact markLoop_mono uid ids s hnd

theorem findOneMessage_updateMessage (s : Store) (mid i : String) (f : Message → Message)
    (hf : ∀ m, (f m).id = m.id) :
    (s.updateMessage mid f).findOneMessage (fun m => decide (m.id = i)) =
      (s.findOneMessage (fun m => decide (m.id = i))).map
        (fun m => if m.id = mid then f m else m) := by
  simp only [Store.findOneMessage, Store.updateMessage]
  rw [List.filter_map, List.head?_map]
  have hpg : ((fun m : Message => decide (m.id = i)) ∘
      (fun m => if m.id = mid then f m else m)) = (fun m : Message => decide (m.id = i)) := by
    funext m
    by_cases hmm : m.id = mid <;> simp [Function.comp, hmm, hf]
  rw [hpg]
theorem markAsRead_skip_eq {u : String} {s : Store} {mid : String} {msg : Message}
    (hfind : s.findOneMessage (fun m => decide (m.id = mid)) = some msg)
    (hin : u ∈ msg.readBy) :
    ChatApp.markAsRead (some u) s [mid] = (.ok (), s, 0) := by
  simp [ChatApp.markAsRead, markLoop, hfind, hin]

theorem markAsRead_write_eq {u : String} {s : Store} {mid : String} {msg : Message}
    (hfind : s.findOneMessage (fun m => decide (m.id = mid)) = some msg)
    (hin : u ∉ msg.readBy) :
    ChatApp.markAsRead (some u) s [mid] =
      (.ok (), s.updateMessage mid (fun m => { m with readBy := msg.readBy ++ [u] }), 1) := by
  simp [ChatApp.markAsRead, markLoop, hfind, hin]

/-- C7: read receipts are monotonic and `markAsRead` is idempotent.  Over any
sequence of `markAsRead` calls on a store with distinct message ids, every
message keeps its id and its `readBy` only grows; running `markAsRead([id],u)`
twice produces the same store as running it once, the repeat issuing zero
store writes; and when `u` is already in the fetched message's `readBy`, the
call performs no store write at all. -/
theorem markAsRead_monotone_idempotent :
    (∀ (s : Store) (calls : List (Option String × List String)), MsgIdsNodup s →
      MsgsMono s.messages (markSeq s calls).messages) ∧
    (∀ (u : String) (s : Store) (mid : String),
      ChatApp.markAsRead (some u) (ChatApp.markAsRead (some u) s [mid]).2.1 [mid]
        = (.ok (), (ChatApp.markAsRead (some u) s [mid]).2.1, 0)) ∧
    (∀ (u : String) (s : Store) (mid : String) (msg : Message),
      s.findOneMessage (fun m => decide (m.id = mid)) = some msg → u ∈ msg.readBy →
        ChatApp.markAsRead (some u) s [mid] = (.ok (), s, 0)) := by
  refine ⟨?_, ?_, ?_⟩
  · intro s calls
    induction calls generalizing s with
    | nil => intro _; exact msgsMono_refl _
    | cons c rest ih =>
      intro hnd
      have hnd2 : MsgIdsNodup (ChatApp.markAsRead c.1 s c.2).2.1 := by
        unfold MsgIdsNodup
        rw [markAsRead_ids c.1 s c.2]
        exact hnd
      exact msgsMono_trans (markAsRead_mono c.1 s c.2 hnd) (ih _ hnd2)
  · intro u s mid
    cases hfind : s.findOneMessage (fun m => decide (m.id = mid)) with
    | none =>
      have h1 : ChatApp.markAsRead (some u) s [mid] = (.ok (), s, 0) := by
        simp [ChatApp.markAsRead, markLoop, hfind]
      rw [h1]
      exact h1
    | some msg =>
      by_cases hin : u ∈ msg.readBy
      · rw [markAsRead_skip_eq hfind hin]
        exact markAsRead_skip_eq hfind hin
      · rw [markAsRead_write_eq hfind hin]
        have h2 : (s.updateMessage mid
              (fun m => { m with readBy := msg.readBy ++ [u] })).findOneMessage
            (fun m => decide (m.id = mid)) =
            some { msg with readBy := msg.readBy ++ [u] } := by
          rw [findOneMessage_updateMessage s mid mid
            (fun m => { m with readBy := msg.readBy ++ [u] }) (fun m => rfl), hfind]
          have hmsgid : msg.id = mid := by simpa using (findOneMessage_some hfind).2
          simp [hmsgid]
        exact markAsRead_skip_eq h2 (List.mem_append_right _ (List.mem_singleton_self u))
  · intro u s mid msg hfind hin
    exact markAsRead_skip_eq hfind hin

/-- Witness for `markAsRead_monotone_idempotent`: scenario 3's store with one
message `readBy = [u1]`, marked by `u2` twice, and the no-write case for `u1`. -/
theorem markAsRead_monotone_idempotent_witness :
    MsgsMono [⟨"0", "r", "u1", "hi", MsgType.text, ["u1"], 1⟩]
      (markSeq ⟨[], [⟨"0", "r", "u1", "hi", MsgType.text, ["u1"], 1⟩], 1⟩
        [(some "u2", ["0"]), (some "u2", ["0"])]).messages ∧
    ChatApp.markAsRead (some "u2")
        (ChatApp.markAsRead (some "u2")
          ⟨[], [⟨"0", "r", "u1", "hi", MsgType.text, ["u1"], 1⟩], 1⟩ ["0"]).2.1 ["0"]
      = (.ok (), (ChatApp.markAsRead (some "u2")
          ⟨[], [⟨"0", "r", "u1", "hi", MsgType.text, ["u1"], 1⟩], 1⟩ ["0"]).2.1, 0) ∧
    ChatApp.markAsRead (some "u1")
        ⟨[], [⟨"0", "r", "u1", "hi", MsgType.text, ["u1"], 1⟩], 1⟩ ["0"]
      = (.ok (), ⟨[], [⟨"0", "r", "u1", "hi", MsgType.text, ["u1"], 1⟩], 1⟩, 0) :=
  ⟨markAsRead_monotone_idempotent.1
      ⟨[], [⟨"0", "r", "u1", "hi", MsgType.text, ["u1"], 1⟩], 1⟩
      [(some "u2", ["0"]), (some "u2", ["0"])]
      (by unfold MsgIdsNodup; decide),
   markAsRead_monotone_idempotent.2.1 "u2"
      ⟨[], [⟨"0", "r", "u1", "hi", MsgType.text, ["u1"], 1⟩], 1⟩ "0",
   markAsRead_monotone_idempotent.2.2 "u1"
      ⟨[], [⟨"0", "r", "u1", "hi", MsgType.text, ["u1"], 1⟩], 1⟩ "0"
      ⟨"0", "r", "u1", "hi", MsgType.text, ["u1"], 1⟩ (by rfl) (by decide)⟩
theorem findOneRoom_updateRoom (s : Store) (rid i : String) (f : ChatRoom → ChatRoom)
    (hf : ∀ r, (f r).id = r.id) :
    (s.updateRoom rid f).findOneRoom (fun r => decide (r.id = i)) =
      (s.findOneRoom (fun r => decide (r.id = i))).map
        (fun r => if r.id = rid then f r else r) := by
  simp only [Store.findOneRoom, Store.updateRoom]
  rw [List.filter_map, List.head?_map]
  have hpg : ((fun r : ChatRoom => decide (r.id = i)) ∘
      (fun r => if r.id = rid then f r else r)) = (fun r : ChatRoom => decide (r.id = i)) := by
    funext r
    by_cases hrr : r.id = rid <;> simp [Function.comp, hrr, hf]
  rw [hpg]

theorem notifyLoop_ok (fail : String → Bool) (mk : String → NotifyCall)
    (hmk : ∀ m, (mk m).userId = m) :
    ∀ l : List String, (∀ x ∈ l, fail x = false) →
      notifyLoop fail mk l = (.ok (), l.map mk) := by
  intro l
  induction l with
  | nil => intro _; rfl
  | cons m rest ih =>
    intro h
    have hm : fail m = false := h m (List.mem_cons_self m rest)
    simp [notifyLoop, notifySend, hmk, hm, ih fun x hx => h x (List.mem_cons_of_mem _ hx)]

theorem notifyLoop_abort (fail : String → Bool) (mk : String → NotifyCall)
    (hmk : ∀ m, (mk m).userId = m)
    (z : String) (post : List String) (hz : fail z = true) :
    ∀ pre : List String, (∀ x ∈ pre, fail x = false) →
      notifyLoop fail mk (pre ++ z :: post) = (.error .notifyFailed, pre.map mk) := by
  intro pre
  induction pre with
  | nil => intro _; simp [notifyLoop, notifySend, hmk, hz]
  | cons m rest ih =>
    intro h
    have hm : fail m = false := h m (List.mem_cons_self m rest)
    simp [notifyLoop, notifySend, hmk, hm, ih fun x hx => h x (List.mem_cons_of_mem _ hx)]

theorem sendMessage_decomp (fail : String → Bool) (uid : String) (s : Store)
    (roomId content : String) (type : MsgType) (now : Nat) (room : ChatRoom)
    (hfind : s.findOneRoom (fun r => decide (r.id = roomId)) = some room) :
    ChatApp.sendMessage fail (some uid) s roomId content type now =
      ⟨(match (notifyLoop fail
          (fun m => ⟨m, "新しいメッセージ: " ++ content.take 50, roomId, toString s.nextId, uid⟩)
          (room.members.filter (fun i => decide (i ≠ uid)))).1 with
        | .error e => .error e
        | .ok _ => .ok ⟨toString s.nextId, roomId, uid, content, type, [uid], now⟩),
       Store.updateRoom
         ⟨s.chatRooms, s.messages ++ [⟨toString s.nextId, roomId, uid, content, type, [uid], now⟩],
          s.nextId + 1⟩ roomId (fun r => { r with lastMessageAt := now }),
       (notifyLoop fail
          (fun m => ⟨m, "新しいメッセージ: " ++ content.take 50, roomId, toString s.nextId, uid⟩)
          (room.members.filter (fun i => decide (i ≠ uid)))).2⟩ := by
  have hroomid : room.id = roomId := by simpa using (findOneRoom_some hfind).2
  have hfind2 : Store.findOneRoom
      ⟨s.chatRooms, s.messages ++ [⟨toString s.nextId, roomId, uid, content, type, [uid], now⟩],
       s.nextId + 1⟩ (fun r => decide (r.id = roomId)) = some room := hfind
  simp only [ChatApp.sendMessage, Store.createMessage, ChatApp.notifyMembers]
  rw [findOneRoom_updateRoom _ roomId roomId
    (fun r => { r with lastMessageAt := now }) (fun r => rfl), hfind2]
  simp only [Option.map_some']
  rw [if_pos hroomid]
  cases hnl : (notifyLoop fail
      (fun m => (⟨m, "新しいメッセージ: " ++ content.take 50, roomId, toString s.nextId, uid⟩ : NotifyCall))
      (room.members.filter (fun i => decide (i ≠ uid)))).1 <;> simp [hnl]
/-- C9: fan-out recipients are exactly the other members.  On an existing room
with a non-failing notifier, `sendMessage` returns the created message and
issues one notifier call per member of `room.members` other than the sender
(in member order), never to the sender, each carrying the preview built from
the first 50 characters of the content and metadata
`{roomId, messageId, senderId}`. -/
theorem sendMessage_fanout_recipients (uid : String) (s : Store) (roomId content : String)
    (type : MsgType) (now : Nat) (room : ChatRoom)
    (hfind : s.findOneRoom (fun r => decide (r.id = roomId)) = some room) :
    (ChatApp.sendMessage (fun _ => false) (some uid) s roomId content type now).result
      = .ok ⟨toString s.nextId, roomId, uid, content, type, [uid], now⟩ ∧
    ((ChatApp.sendMessage (fun _ => false) (some uid) s roomId content type now).notifications.map
        (fun c => c.userId)) = room.members.filter (fun i => decide (i ≠ uid)) ∧
    uid ∉ ((ChatApp.sendMessage (fun _ => false) (some uid) s roomId content type now).notifications.map
        (fun c => c.userId)) ∧
    (∀ c ∈ (ChatApp.sendMessage (fun _ => false) (some uid) s roomId content type now).notifications,
      c.message = "新しいメッセージ: " ++ content.take 50 ∧ c.roomId = roomId ∧
      c.messageId = toString s.nextId ∧ c.senderId = uid) := by
  rw [sendMessage_decomp (fun _ => false) uid s roomId content type now room hfind,
    notifyLoop_ok (fun _ => false)
      (fun m => ⟨m, "新しいメッセージ: " ++ content.take 50, roomId, toString s.nextId, uid⟩)
      (fun m => rfl) (room.members.filter (fun i => decide (i ≠ uid))) (fun x _ => rfl)]
  refine ⟨rfl, ?_, ?_, ?_⟩
  · rw [List.map_map]
    show List.map (fun m : String => m) (room.members.filter (fun i => decide (i ≠ uid)))
      = room.members.filter (fun i => decide (i ≠ uid))
    simp
  · intro hmem
    simp [List.map_map, Function.comp, List.mem_filter] at hmem
  · intro c hc
    simp only [List.mem_map] at hc
    rcases hc with ⟨m, _, rfl⟩
    exact ⟨rfl, rfl, rfl, rfl⟩

/-- Witness for `sendMessage_fanout_recipients`: scenario 4's three-member
group room with sender `u1`. -/
theorem sendMessage_fanout_recipients_witness :
    (ChatApp.sendMessage (fun _ => false) (some "u1")
        ⟨[⟨"r1", "g", RoomType.group, ["u1", "u2", "u3"], 0, 0⟩], [], 1⟩
        "r1" "hello" MsgType.text 5).result
      = .ok ⟨toString (1 : Nat), "r1", "u1", "hello", MsgType.text, ["u1"], 5⟩ ∧
    ((ChatApp.sendMessage (fun _ => false) (some "u1")
        ⟨[⟨"r1", "g", RoomType.group, ["u1", "u2", "u3"], 0, 0⟩], [], 1⟩
        "r1" "hello" MsgType.text 5).notifications.map (fun c => c.userId))
      = ["u1", "u2", "u3"].filter (fun i => decide (i ≠ "u1")) ∧
    "u1" ∉ ((ChatApp.sendMessage (fun _ => false) (some "u1")
        ⟨[⟨"r1", "g", RoomType.group, ["u1", "u2", "u3"], 0, 0⟩], [], 1⟩
        "r1" "hello" MsgType.text 5).notifications.map (fun c => c.userId)) ∧
    (∀ c ∈ (ChatApp.sendMessage (fun _ => false) (some "u1")
        ⟨[⟨"r1", "g", RoomType.group, ["u1", "u2", "u3"], 0, 0⟩], [], 1⟩
        "r1" "hello" MsgType.text 5).notifications,
      c.message = "新しいメッセージ: " ++ "hello".take 50 ∧ c.roomId = "r1" ∧
      c.messageId = toString (1 : Nat) ∧ c.senderId = "u1") :=
  sendMessage_fanout_recipients "u1"
    ⟨[⟨"r1", "g", RoomType.group, ["u1", "u2", "u3"], 0, 0⟩], [], 1⟩
    "r1" "hello" MsgType.text 5 ⟨"r1", "g", RoomType.group, ["u1", "u2", "u3"], 0, 0⟩ (by rfl)
/-- C2 counterexample: in a three-member room `{u1, u2, u3}` with sender `u1`,
a notifier transport failure for `u2` makes `sendMessage` itself fail and no
notifier call completes — in particular `u3`, whose transport works, is never
notified — refuting that fan-out is best-effort. -/
theorem sendMessage_fanout_not_best_effort :
    (ChatApp.sendMessage (fun x => decide (x = "u2")) (some "u1")
        ⟨[⟨"r1", "g", RoomType.group, ["u1", "u2", "u3"], 0, 0⟩], [], 1⟩
        "r1" "hello" MsgType.text 5).result = .error .notifyFailed ∧
    (ChatApp.sendMessage (fun x => decide (x = "u2")) (some "u1")
        ⟨[⟨"r1", "g", RoomType.group, ["u1", "u2", "u3"], 0, 0⟩], [], 1⟩
        "r1" "hello" MsgType.text 5).notifications = [] := by
  constructor <;> rfl

/-- C2 amended: the fan-out loop awaits each notifier call without a
try/catch, so a transport failure for one recipient aborts the loop —
recipients after the failing one receive no call — and the exception
propagates, failing `sendMessage` itself; the message record appended before
fan-out nevertheless remains in the store. -/
theorem sendMessage_fanout_aborts (fail : String → Bool) (uid : String) (s : Store)
    (roomId content : String) (type : MsgType) (now : Nat) (room : ChatRoom)
    (pre post : List String) (z : String)
    (hfind : s.findOneRoom (fun r => decide (r.id = roomId)) = some room)
    (hsplit : room.members.filter (fun i => decide (i ≠ uid)) = pre ++ z :: post)
    (hpre : ∀ x ∈ pre, fail x = false) (hz : fail z = true) :
    (ChatApp.sendMessage fail (some uid) s roomId content type now).result
      = .error .notifyFailed ∧
    (ChatApp.sendMessage fail (some uid) s roomId content type now).notifications
      = pre.map (fun m =>
          ⟨m, "新しいメッセージ: " ++ content.take 50, roomId, toString s.nextId, uid⟩) ∧
    (⟨toString s.nextId, roomId, uid, content, type, [uid], now⟩ : Message)
      ∈ (ChatApp.sendMessage fail (some uid) s roomId content type now).store.messages := by
  rw [sendMessage_decomp fail uid s roomId content type now room hfind, hsplit,
    notifyLoop_abort fail
      (fun m => ⟨m, "新しいメッセージ: " ++ content.take 50, roomId, toString s.nextId, uid⟩)
      (fun m => rfl) z post hz pre hpre]
  refine ⟨rfl, rfl, ?_⟩
  simp [Store.updateRoom]

/-- Witness for `sendMessage_fanout_aborts` at the concrete room of the
counterexample. -/
theorem sendMessage_fanout_aborts_witness :
    (ChatApp.sendMessage (fun x => decide (x = "u2")) (some "u1")
        ⟨[⟨"r1", "g", RoomType.group, ["u1", "u2", "u3"], 0, 0⟩], [], 1⟩
        "r1" "hello" MsgType.text 5).result = .error .notifyFailed ∧
    (ChatApp.sendMessage (fun x => decide (x = "u2")) (some "u1")
        ⟨[⟨"r1", "g", RoomType.group, ["u1", "u2", "u3"], 0, 0⟩], [], 1⟩
        "r1" "hello" MsgType.text 5).notifications
      = ([] : List String).map (fun m =>
          ⟨m, "新しいメッセージ: " ++ "hello".take 50, "r1", toString (1 : Nat), "u1"⟩) ∧
    (⟨toString (1 : Nat), "r1", "u1", "hello", MsgType.text, ["u1"], 5⟩ : Message)
      ∈ (ChatApp.sendMessage (fun x => decide (x = "u2")) (some "u1")
        ⟨[⟨"r1", "g", RoomType.group, ["u1", "u2", "u3"], 0, 0⟩], [], 1⟩
        "r1" "hello" MsgType.text 5).store.messages :=
  sendMessage_fanout_aborts (fun x => decide (x = "u2")) "u1"
    ⟨[⟨"r1", "g", RoomType.group, ["u1", "u2", "u3"], 0, 0⟩], [], 1⟩
    "r1" "hello" MsgType.text 5 ⟨"r1", "g", RoomType.group, ["u1", "u2", "u3"], 0, 0⟩
    [] ["u3"] "u2" (by rfl) (by rfl) (by intro x hx; cases hx) (by decide)
theorem sendMessage_store_eq (fail : String → Bool) (uid : String) (s : Store)
    (roomId content : String) (type : MsgType) (now : Nat) :
    (ChatApp.sendMessage fail (some uid) s roomId content type now).store =
      Store.updateRoom
        ⟨s.chatRooms, s.messages ++ [⟨toString s.nextId, roomId, uid, content, type, [uid], now⟩],
         s.nextId + 1⟩ roomId (fun r => { r with lastMessageAt := now }) := by
  simp only [ChatApp.sendMessage, Store.createMessage]
  split <;> rfl

theorem notifyMembers_const_ok (fail : String → Bool) (hfail : ∀ x, fail x = false)
    (uid : String) (s : Store) (roomId : String) (msg : Message) :
    (ChatApp.notifyMembers fail uid s roomId msg).1 = .ok () := by
  cases hfind : s.findOneRoom (fun r => decide (r.id = roomId)) with
  | none => simp [ChatApp.notifyMembers, hfind]
  | some room =>
    simp only [ChatApp.notifyMembers, hfind]
    rw [notifyLoop_ok fail
      (fun m => ⟨m, "新しいメッセージ: " ++ msg.content.take 50, roomId, msg.id, uid⟩)
      (fun m => rfl) (room.members.filter (fun i => decide (i ≠ uid))) (fun x _ => hfail x)]

theorem sendMessage_result_ok (fail : String → Bool) (hfail : ∀ x, fail x = false)
    (uid : String) (s : Store) (roomId content : String) (type : MsgType) (now : Nat) :
    (ChatApp.sendMessage fail (some uid) s roomId content type now).result
      = .ok ⟨toString s.nextId, roomId, uid, content, type, [uid], now⟩ := by
  simp only [ChatApp.sendMessage, Store.createMessage]
  split
  · rename_i e heq
    rw [notifyMembers_const_ok fail hfail] at heq
    simp at heq
  · rfl

/-- C3 counterexample: `sendMessage` with empty content succeeds and a message
record with empty content is persisted — no `InvalidArgument` validation
exists in the code. -/
theorem sendMessage_empty_content_accepted :
    (ChatApp.sendMessage (fun _ => false) (some "u1")
        ⟨[⟨"r1", "g", RoomType.group, ["u1", "u2"], 0, 0⟩], [], 1⟩
        "r1" "" MsgType.text 5).result
      = .ok ⟨"1", "r1", "u1", "", MsgType.text, ["u1"], 5⟩ ∧
    (ChatApp.sendMessage (fun _ => false) (some "u1")
        ⟨[⟨"r1", "g", RoomType.group, ["u1", "u2"], 0, 0⟩], [], 1⟩
        "r1" "" MsgType.text 5).store.messages
      = [⟨"1", "r1", "u1", "", MsgType.text, ["u1"], 5⟩] := by
  constructor <;> rfl

/-- C3 amended: `sendMessage` performs no content validation.  With an
authenticated session and a non-failing notifier, a call with empty content
succeeds, returning and persisting a message record whose content is the
empty string. -/
theorem sendMessage_no_content_validation (uid : String) (s : Store) (roomId : String)
    (type : MsgType) (now : Nat) :
    (ChatApp.sendMessage (fun _ => false) (some uid) s roomId "" type now).result
      = .ok ⟨toString s.nextId, roomId, uid, "", type, [uid], now⟩ ∧
    (⟨toString s.nextId, roomId, uid, "", type, [uid], now⟩ : Message)
      ∈ (ChatApp.sendMessage (fun _ => false) (some uid) s roomId "" type now).store.messages := by
  refine ⟨sendMessage_result_ok _ (fun x => rfl) uid s roomId "" type now, ?_⟩
  rw [sendMessage_store_eq]
  simp [Store.updateRoom]

/-- C4 counterexample: a room whose `lastMessageAt` is 5 receives a message
stamped 3; after `sendMessage` the room's `lastMessageAt` is 3 — it
decreased, refuting the monotonic (greater-only) update. -/
theorem sendMessage_lastMessageAt_decreases :
    ((ChatApp.sendMessage (fun _ => false) (some "u1")
        ⟨[⟨"r1", "", RoomType.group, ["u1", "u2"], 0, 5⟩], [], 1⟩
        "r1" "hi" MsgType.text 3).store.chatRooms.map ChatRoom.lastMessageAt) = [3] ∧
    (3 : Nat) < 5 := by
  constructor
  · rfl
  · decide

/-- C4 amended: the `lastMessageAt` update in `sendMessage` is unconditional —
every room record with the target id gets `lastMessageAt` set to the new
message's `createdAt`, with no comparison against the current value, so an
older timestamp overwrites (decreases) it. -/
theorem sendMessage_touch_unconditional (fail : String → Bool) (uid : String) (s : Store)
    (roomId content : String) (type : MsgType) (now : Nat) (r : ChatRoom)
    (hr : r ∈ s.chatRooms) (hid : r.id = roomId) :
    { r with lastMessageAt := now } ∈
      (ChatApp.sendMessage fail (some uid) s roomId content type now).store.chatRooms := by
  rw [sendMessage_store_eq]
  simp only [Store.updateRoom]
  exact List.mem_map.mpr ⟨r, hr, by simp [hid]⟩

/-- Witness for `sendMessage_touch_unconditional` at the counterexample's
room. -/
theorem sendMessage_touch_unconditional_witness :
    ({ id := "r1", name := "", type := RoomType.group, members := ["u1", "u2"],
       createdAt := 0, lastMessageAt := 3 } : ChatRoom) ∈
      (ChatApp.sendMessage (fun _ => false) (some "u1")
        ⟨[⟨"r1", "", RoomType.group, ["u1", "u2"], 0, 5⟩], [], 1⟩
        "r1" "hi" MsgType.text 3).store.chatRooms :=
  sendMessage_touch_unconditional (fun _ => false) "u1"
    ⟨[⟨"r1", "", RoomType.group, ["u1", "u2"], 0, 5⟩], [], 1⟩
    "r1" "hi" MsgType.text 3 ⟨"r1", "", RoomType.group, ["u1", "u2"], 0, 5⟩
    (by decide) (by rfl)

/-- C5 counterexample: on a store with no rooms at all, `sendMessage` succeeds
silently — it returns the created message and issues no notifications —
rather than raising NotFound. -/
theorem sendMessage_missing_room_succeeds :
    (ChatApp.sendMessage (fun _ => false) (some "u1") ⟨[], [], 0⟩
        "r1" "hi" MsgType.text 7).result
      = .ok ⟨"0", "r1", "u1", "hi", MsgType.text, ["u1"], 7⟩ ∧
    (ChatApp.sendMessage (fun _ => false) (some "u1") ⟨[], [], 0⟩
        "r1" "hi" MsgType.text 7).notifications = [] := by
  constructor <;> rfl

/-- C5 amended: when the room id is absent from `chat_rooms`, `sendMessage`
does not fail: the `lastMessageAt` update is a no-op (the store's update of a
missing id patches nothing), the room lookup in `notifyMembers` returns null
and fan-out is silently skipped, and the created message is persisted and
returned. -/
theorem sendMessage_missing_room_silent (fail : String → Bool) (uid : String) (s : Store)
    (roomId content : String) (type : MsgType) (now : Nat)
    (habs : ∀ r ∈ s.chatRooms, r.id ≠ roomId) :
    (ChatApp.sendMessage fail (some uid) s roomId content type now).result
      = .ok ⟨toString s.nextId, roomId, uid, content, type, [uid], now⟩ ∧
    (ChatApp.sendMessage fail (some uid) s roomId content type now).notifications = [] ∧
    (ChatApp.sendMessage fail (some uid) s roomId content type now).store.chatRooms
      = s.chatRooms ∧
    (⟨toString s.nextId, roomId, uid, content, type, [uid], now⟩ : Message)
      ∈ (ChatApp.sendMessage fail (some uid) s roomId content type now).store.messages := by
  have hfil : s.chatRooms.filter (fun r => decide (r.id = roomId)) = [] := by
    rw [List.filter_eq_nil_iff]
    intro a ha
    simp [habs a ha]
  have hnone : Store.findOneRoom
      ⟨s.chatRooms, s.messages ++ [⟨toString s.nextId, roomId, uid, content, type, [uid], now⟩],
       s.nextId + 1⟩ (fun r => decide (r.id = roomId)) = none := by
    show (s.chatRooms.filter (fun r => decide (r.id = roomId))).head? = none
    rw [hfil]
    rfl
  have hnm : ChatApp.notifyMembers fail uid
      (Store.updateRoom
        ⟨s.chatRooms, s.messages ++ [⟨toString s.nextId, roomId, uid, content, type, [uid], now⟩],
         s.nextId + 1⟩ roomId (fun r => { r with lastMessageAt := now })) roomId
      ⟨toString s.nextId, roomId, uid, content, type, [uid], now⟩ = (.ok (), []) := by
    simp only [ChatApp.notifyMembers]
    rw [findOneRoom_updateRoom _ roomId roomId
      (fun r => { r with lastMessageAt := now }) (fun r => rfl), hnone]
    rfl
  have hrooms : (ChatApp.sendMessage fail (some uid) s roomId content type now).store.chatRooms
      = s.chatRooms := by
    rw [sendMessage_store_eq]
    simp only [Store.updateRoom]
    have : ∀ r ∈ s.chatRooms,
        (if r.id = roomId then { r with lastMessageAt := now } else r) = r := by
      intro r hr
      rw [if_neg (habs r hr)]
    rw [List.map_congr_left this]
    simp
  refine ⟨?_, ?_, hrooms, ?_⟩
  · simp only [ChatApp.sendMessage, Store.createMessage]
    rw [hnm]
  · simp only [ChatApp.sendMessage, Store.createMessage]
    rw [hnm]
  · rw [sendMessage_store_eq]
    simp [Store.updateRoom]

/-- Witness for `sendMessage_missing_room_silent` at the counterexample's
empty store. -/
theorem sendMessage_missing_room_silent_witness :
    (ChatApp.sendMessage (fun _ => false) (some "u1") ⟨[], [], 0⟩
        "r1" "hi" MsgType.text 7).result
      = .ok ⟨toString (0 : Nat), "r1", "u1", "hi", MsgType.text, ["u1"], 7⟩ ∧
    (ChatApp.sendMessage (fun _ => false) (some "u1") ⟨[], [], 0⟩
        "r1" "hi" MsgType.text 7).notifications = [] ∧
    (ChatApp.sendMessage (fun _ => false) (some "u1") ⟨[], [], 0⟩
        "r1" "hi" MsgType.text 7).store.chatRooms = ([] : List ChatRoom) ∧
    (⟨toString (0 : Nat), "r1", "u1", "hi", MsgType.text, ["u1"], 7⟩ : Message)
      ∈ (ChatApp.sendMessage (fun _ => false) (some "u1") ⟨[], [], 0⟩
        "r1" "hi" MsgType.text 7).store.messages :=
  sendMessage_missing_room_silent (fun _ => false) "u1" ⟨[], [], 0⟩ "r1" "hi" MsgType.text 7
    (by intro r hr; cases hr)
theorem mem_insertByDesc {α : Type} (key : α → Nat) (x : α) :
    ∀ (l : List α) (a : α), a ∈ insertByDesc key x l ↔ a = x ∨ a ∈ l := by
  intro l
  induction l with
  | nil => intro a; simp [insertByDesc]
  | cons y ys ih =>
    intro a
    by_cases h : key y ≤ key x
    · simp only [insertByDesc, if_pos h]
      simp
    · simp only [insertByDesc, if_neg h]
      simp [ih a]
      tauto

theorem pairwise_insertByDesc {α : Type} (key : α → Nat) (x : α) :
    ∀ l : List α, l.Pairwise (fun a b => key b ≤ key a) →
      (insertByDesc key x l).Pairwise (fun a b => key b ≤ key a) := by
  intro l
  induction l with
  | nil => intro _; simp [insertByDesc]
  | cons y ys ih =>
    intro hp
    rcases List.pairwise_cons.mp hp with ⟨hy, hys⟩
    by_cases h : key y ≤ key x
    · simp only [insertByDesc, if_pos h]
      refine List.pairwise_cons.mpr ⟨?_, hp⟩
      intro b hb
      rcases List.mem_cons.mp hb with rfl | hbys
      · exact h
      · exact Nat.le_trans (hy b hbys) h
    · simp only [insertByDesc, if_neg h]
      refine List.pairwise_cons.mpr ⟨?_, ih hys⟩
      intro b hb
      rcases (mem_insertByDesc key x ys b).mp hb with rfl | hbys
      · exact Nat.le_of_lt (Nat.lt_of_not_le h)
      · exact hy b hbys

theorem sortByDesc_pairwise {α : Type} (key : α → Nat) :
    ∀ l : List α, (sortByDesc key l).Pairwise (fun a b => key b ≤ key a) := by
  intro l
  induction l with
  | nil => exact List.Pairwise.nil
  | cons x xs ih =>
    simp only [sortByDesc]
    exact pairwise_insertByDesc key x _ ih

theorem reverse_take_suffix {α : Type} (l : List α) (n : Nat) :
    (l.take n).reverse <:+ l.reverse :=
  ⟨(l.drop n).reverse, by rw [← List.reverse_append, List.take_append_drop]⟩

theorem length_insertByDesc {α : Type} (key : α → Nat) (x : α) :
    ∀ l : List α, (insertByDesc key x l).length = l.length + 1 := by
  intro l
  induction l with
  | nil => rfl
  | cons y ys ih =>
    by_cases h : key y ≤ key x
    · simp [insertByDesc, if_pos h]
    · simp only [insertByDesc, if_neg h, List.length_cons, ih]

theorem length_sortByDesc {α : Type} (key : α → Nat) :
    ∀ l : List α, (sortByDesc key l).length = l.length := by
  intro l
  induction l with
  | nil => rfl
  | cons x xs ih =>
    simp only [sortByDesc, length_insertByDesc, ih, List.length_cons]

/-- C8 counterexample: `getMessages(room, 0)` is supposed to return at most 0
messages, but the JS client drops a falsy limit of 0 entirely, so the full
history is returned: on a store with one message in room `r`, the call
returns that message, violating `length ≤ 0`. -/
theorem getMessages_limit_zero_unbounded :
    ChatApp.getMessages (some "u") ⟨[], [⟨"0", "r", "u", "a", MsgType.text, ["u"], 1⟩], 1⟩ "r" 0
      = .ok [⟨"0", "r", "u", "a", MsgType.text, ["u"], 1⟩] ∧
    ¬ (([⟨"0", "r", "u", "a", MsgType.text, ["u"], 1⟩] : List Message).length ≤ 0) := by
  constructor
  · rfl
  · decide

/-- C8 amended: for every limit N ≥ 1 `getMessages` returns exactly the most
recent N messages of the room's full chronological history — the result has
length `min N (history length)`, is sorted ascending by `createdAt`, and is a
suffix of that history; a limit of 0 is falsy in the JS client, so the limit
is dropped and the entire history is returned. -/
theorem getMessages_chronological_suffix (u : String) (s : Store) (roomId : String) :
    (∀ N : Nat, 1 ≤ N →
      ∃ msgs, ChatApp.getMessages (some u) s roomId N = .ok msgs ∧
        msgs.length = min N (fullHistory s roomId).length ∧
        msgs.length ≤ N ∧
        msgs.Pairwise (fun a b => a.createdAt ≤ b.createdAt) ∧
        msgs <:+ fullHistory s roomId) ∧
    ChatApp.getMessages (some u) s roomId 0 = .ok (fullHistory s roomId) := by
  constructor
  · intro N hN
    have hNz : ¬ N = 0 := Nat.one_le_iff_ne_zero.mp hN
    refine ⟨((sortByDesc Message.createdAt
        (s.messages.filter (fun m => decide (m.roomId = roomId)))).take N).reverse,
      ?_, ?_, ?_, ?_, ?_⟩
    · simp only [ChatApp.getMessages, dataFindMessages]
      rw [if_neg hNz]
      rfl
    · rw [List.length_reverse, List.length_take]
      simp [fullHistory, List.length_reverse]
    · rw [List.length_reverse, List.length_take]
      exact Nat.min_le_left N _
    · rw [List.pairwise_reverse]
      exact ((sortByDesc_pairwise Message.createdAt _).sublist
        (List.take_sublist N _)).imp (fun h => h)
    · exact reverse_take_suffix _ N
  · rfl

/-- Witness for `getMessages_chronological_suffix` on the counterexample's
one-message store at `N = 1`, plus its limit-0 behavior. -/
theorem getMessages_chronological_suffix_witness :
    (∃ msgs, ChatApp.getMessages (some "u")
        ⟨[], [⟨"0", "r", "u", "a", MsgType.text, ["u"], 1⟩], 1⟩ "r" 1 = .ok msgs ∧
      msgs.length = min 1 (fullHistory ⟨[], [⟨"0", "r", "u", "a", MsgType.text, ["u"], 1⟩], 1⟩ "r").length ∧
      msgs.length ≤ 1 ∧
      msgs.Pairwise (fun a b => a.createdAt ≤ b.createdAt) ∧
      msgs <:+ fullHistory ⟨[], [⟨"0", "r", "u", "a", MsgType.text, ["u"], 1⟩], 1⟩ "r") ∧
    ChatApp.getMessages (some "u") ⟨[], [⟨"0", "r", "u", "a", MsgType.text, ["u"], 1⟩], 1⟩ "r" 0
      = .ok (fullHistory ⟨[], [⟨"0", "r", "u", "a", MsgType.text, ["u"], 1⟩], 1⟩ "r") :=
  ⟨(getMessages_chronological_suffix "u"
      ⟨[], [⟨"0", "r", "u", "a", MsgType.text, ["u"], 1⟩], 1⟩ "r").1 1 (by decide),
   (getMessages_chronological_suffix "u"
      ⟨[], [⟨"0", "r", "u", "a", MsgType.text, ["u"], 1⟩], 1⟩ "r").2⟩
/-- C10: `getOnlineUsers` is total and unauthenticated — its result ignores
the session entirely (it is the only public domain operation without the
session check: every other operation fails `NotAuthenticated` on a missing
session), an absent room yields the empty list rather than NotFound, and a
present room yields its member list. -/
theorem getOnlineUsers_total_no_auth :
    (∀ (user : Option String) (s : Store) (roomId : String),
      ChatApp.getOnlineUsers user s roomId = ChatApp.getOnlineUsers none s roomId) ∧
    (∀ (s : Store) (roomId : String), (∀ r ∈ s.chatRooms, r.id ≠ roomId) →
      ChatApp.getOnlineUsers none s roomId = []) ∧
    (∀ (s : Store) (roomId : String) (room : ChatRoom),
      s.findOneRoom (fun r => decide (r.id = roomId)) = some room →
      ChatApp.getOnlineUsers none s roomId = room.members) ∧
    (∀ (s : Store) (otherUserId : String) (now : Nat),
      ChatApp.createDirectRoom none s otherUserId now = (.error .notAuthenticated, s)) ∧
    (∀ (s : Store) (name : String) (ids : List String) (now : Nat),
      ChatApp.createGroupRoom none s name ids now = (.error .notAuthenticated, s)) ∧
    (∀ s : Store, ChatApp.getRooms none s = .error .notAuthenticated) ∧
    (∀ (s : Store) (roomId : String),
      ChatApp.leaveRoom none s roomId = (.error .notAuthenticated, s)) ∧
    (∀ (fail : String → Bool) (s : Store) (roomId content : String) (type : MsgType) (now : Nat),
      ChatApp.sendMessage fail none s roomId content type now = ⟨.error .notAuthenticated, s, []⟩) ∧
    (∀ (s : Store) (roomId : String) (limit : Nat),
      ChatApp.getMessages none s roomId limit = .error .notAuthenticated) ∧
    (∀ (s : Store) (ids : List String),
      ChatApp.markAsRead none s ids = (.error .notAuthenticated, s, 0)) ∧
    (∀ (s : Store) (roomId : Option String),
      ChatApp.getUnreadCount none s roomId = .error .notAuthenticated) := by
  refine ⟨fun _ _ _ => rfl, ?_, ?_, fun _ _ _ => rfl, fun _ _ _ _ => rfl, fun _ => rfl,
    fun _ _ => rfl, fun _ _ _ _ _ _ => rfl, fun _ _ _ => rfl, fun _ _ => rfl, fun _ _ => rfl⟩
  · intro s roomId habs
    have hfil : s.chatRooms.filter (fun r => decide (r.id = roomId)) = [] := by
      rw [List.filter_eq_nil_iff]
      intro a ha
      simp [habs a ha]
    have hnone : s.findOneRoom (fun r => decide (r.id = roomId)) = none := by
      show (s.chatRooms.filter (fun r => decide (r.id = roomId))).head? = none
      rw [hfil]
      rfl
    simp [ChatApp.getOnlineUsers, hnone]
  · intro s roomId room hfind
    simp [ChatApp.getOnlineUsers, hfind]

/-- Witness for `getOnlineUsers_total_no_auth`: the empty store returns `[]`
without a session, and a present room returns its members. -/
theorem getOnlineUsers_total_no_auth_witness :
    ChatApp.getOnlineUsers none ⟨[], [], 0⟩ "r" = [] ∧
    ChatApp.getOnlineUsers none
      ⟨[⟨"r", "g", RoomType.group, ["u1", "u2"], 0, 0⟩], [], 1⟩ "r" = ["u1", "u2"] :=
  ⟨getOnlineUsers_total_no_auth.2.1 ⟨[], [], 0⟩ "r" (by intro r hr; cases hr),
   getOnlineUsers_total_no_auth.2.2.1
     ⟨[⟨"r", "g", RoomType.group, ["u1", "u2"], 0, 0⟩], [], 1⟩ "r"
     ⟨"r", "g", RoomType.group, ["u1", "u2"], 0, 0⟩ (by rfl)⟩
